import Mathlib

/-!
Verification of the resilient step-orchestration engine of the
Microsoft-Rewards-Bot repository: a shallow embedding of its challenge
handler (TotpHandler.ts), human-typing simulator (HumanTyping.ts), retry
wrapper and e-mail recovery loop (AccountCreator), error-report endpoint
(report-error) and config normalizer (Load.ts), with theorems about the
properties the specification states.

External effects (the browser page, the operator console, timers, the
webhook transport, the hash library) are modelled as oracle parameters;
everything the repository's own code computes is translated directly.
-/

/-! ## JavaScript string helpers

JS treats the empty string, null and undefined as falsy. Optional string
values are modelled as Option String, with some "" distinct from none the
way a present-but-empty attribute differs from a missing one. -/

/-- JS falsiness for an optional string: undefined/null or the empty string. -/
def jsFalsy : Option String → Bool
  | none => true
  | some s => s = ""

/-- JS logical-or on optional strings: a || b keeps a unless a is falsy. -/
def jsOr (a b : Option String) : Option String :=
  if jsFalsy a then b else a

/-- Character-list helper: does sub occur as a contiguous run of l? -/
def infixOfChars (sub : List Char) : List Char → Bool
  | [] => sub.isEmpty
  | c :: cs => sub.isPrefixOf (c :: cs) || infixOfChars sub cs

/-- JS String.prototype.includes: substring containment. -/
def jsIncludes (s sub : String) : Bool :=
  infixOfChars sub.toList s.toList

/-- String.prototype.toLowerCase, character by character (the vocabulary
compared against is ASCII). -/
def jsToLower (s : String) : String :=
  String.mk (s.toList.map Char.toLower)

/-- String.prototype.trim: strip leading and trailing whitespace. -/
def jsTrim (s : String) : String :=
  String.mk (((s.toList.dropWhile Char.isWhitespace).reverse.dropWhile
    Char.isWhitespace).reverse)

/-! ## TotpHandler (src/functions/login/TotpHandler.ts)

The mutable fields of the TotpHandler class that tryAutoTotp reads and
writes. Times are integers (milliseconds, Date.now()). -/

/-- The per-instance state of the TotpHandler class: lastTotpSubmit,
totpAttempts and currentTotpSecret. -/
structure TotpState where
  lastTotpSubmit : Int
  totpAttempts : Nat
  currentTotpSecret : Option String
  deriving Repr, DecidableEq

/-- The throttle window of tryAutoTotp (const throttleMs = 5000). -/
def throttleMs : Int := 5000

/-- The terminal error thrown by tryAutoTotp after 3 attempts. -/
def totpTerminalMsg : String :=
  "TOTP challenge still present after multiple attempts; verify authenticator secret or approvals."

/-- The timeout error thrown by handleSMSOrTotp when the operator is AFK. -/
def timeoutErrMsg : String := "2FA code input timeout after 120s"

/-- Result of one call to tryAutoTotp: the returned/thrown outcome, the
updated handler state, and whether submitTotpCode was invoked (a code
submission happened). -/
structure TotpCallResult where
  outcome : Except String Bool
  state : TotpState
  submitted : Bool
  deriving Repr

/-- tryAutoTotp(page, context, currentTotpSecret?): the secret falls back
from the argument to the field (JS ||); no secret returns false; a call
within throttleMs of lastTotpSubmit returns false; a missing code input
(ensureTotpInput null, supplied here as an oracle since it probes the
page) returns false; 3 or more prior attempts throw the terminal error;
otherwise the code is submitted, totpAttempts increments and
lastTotpSubmit is set to now. -/
def tryAutoTotp (s : TotpState) (now : Int) (secretArg : Option String)
    (ensureResult : Option String) : TotpCallResult :=
  let secret := jsOr secretArg s.currentTotpSecret
  if jsFalsy secret then ⟨Except.ok false, s, false⟩
  else if now - s.lastTotpSubmit < throttleMs then ⟨Except.ok false, s, false⟩
  else
    match ensureResult with
    | none => ⟨Except.ok false, s, false⟩
    | some _sel =>
      if 3 ≤ s.totpAttempts then ⟨Except.error totpTerminalMsg, s, false⟩
      else
        ⟨Except.ok true,
         { s with totpAttempts := s.totpAttempts + 1, lastTotpSubmit := now },
         true⟩

/-! ### handleSMSOrTotp: manual 2FA entry with 120 s deadline

The operator console and the timer race (Promise.race of rl.question and
setTimeout) are modelled by an oracle saying whether and when a line of
input arrives. The outcome records the cleanup state: whether the
readline interface was closed and whether a timer is still pending. -/

/-- The 120 s manual-entry deadline (setTimeout(..., 120000)). -/
def manualTimeoutMs : Nat := 120000

/-- Environment of one handleSMSOrTotp call: the operator's answer and
its arrival time in ms after the prompt (none = operator stays silent),
and whether the otc input field is still visible once a code arrives. -/
structure ManualEntryEnv where
  operatorInput : Option (String × Nat)
  inputFieldVisible : Bool

/-- Observable outcome of handleSMSOrTotp: the returned/thrown result,
whether the readline interface ended closed, whether a timer wait is
still pending, the code typed via HumanTyping.typeTotp (if any), whether
Enter was pressed to submit it, and whether the AFK error log line was
emitted. -/
structure ManualEntryOutcome where
  result : Except String Unit
  rlClosed : Bool
  timerPending : Bool
  typed : Option String
  submitted : Bool
  afkLogged : Bool
  deriving Repr

/-- The timeout branch: setTimeout fires at 120 s, closes the readline
interface and rejects; the catch block sees 'timeout' in the message,
logs the AFK error and re-throws; finally closes rl again (idempotent). -/
def manualTimeoutOutcome : ManualEntryOutcome :=
  ⟨Except.error timeoutErrMsg, true, false, none, false, true⟩

/-- The prompt part of handleSMSOrTotp, after the second-chance
tryAutoTotp returned false. An answer strictly before the deadline wins
the race: the timer is cleared, rl closed, and the trimmed code is typed
into input[name="otc"] and submitted with Enter, unless the field
disappeared (operator progressed manually), in which case the call just
returns. No answer, or an answer at or after the deadline, takes the
timeout branch. -/
def manualPrompt (env : ManualEntryEnv) : ManualEntryOutcome :=
  match env.operatorInput with
  | some (ans, t) =>
    if t < manualTimeoutMs then
      if env.inputFieldVisible then
        ⟨Except.ok (), true, false, some (jsTrim ans), true, false⟩
      else
        ⟨Except.ok (), true, false, none, false, false⟩
    else manualTimeoutOutcome
  | none => manualTimeoutOutcome

/-- handleSMSOrTotp(page): first a second-chance tryAutoTotp (whose
throw, if any, propagates — that call sits outside the try block), then
the manual prompt. Returns the outcome and the updated handler state. -/
def handleSMSOrTotp (s : TotpState) (now : Int) (ensureResult : Option String)
    (env : ManualEntryEnv) : ManualEntryOutcome × TotpState :=
  let auto := tryAutoTotp s now none ensureResult
  match auto.outcome with
  | Except.ok true => (⟨Except.ok (), false, false, none, false, false⟩, auto.state)
  | Except.error m => (⟨Except.error m, false, false, none, false, false⟩, auto.state)
  | Except.ok false => (manualPrompt env, auto.state)

/-! ### ensureTotpInput: bounded reveal loop

findFirstTotpInput and the two clickFirstVisibleSelector probes query
the live page; they are modelled as per-iteration observations. -/

/-- What the page shows during one iteration of the reveal loop: whether
an altOptions control is visible (clicked first), whether a challenge
control is visible (clicked only if no altOptions control was), and what
findFirstTotpInput resolves to after those actions. -/
structure RevealIterObs where
  altVisible : Bool
  challengeVisible : Bool
  found : Option String

/-- The page behaviour across an ensureTotpInput call: the initial
findFirstTotpInput result and the observation for each loop iteration. -/
structure RevealPageObs where
  found0 : Option String
  iter : Nat → RevealIterObs

/-- The disclosure click an iteration performs, if any: the first visible
altOptions control, otherwise the first visible challenge control. -/
inductive RevealClick where
  | altOptions
  | challenge
  deriving Repr, DecidableEq

/-- Trace of one executed loop iteration: which disclosure control was
clicked (none = no action) and what findFirstTotpInput then returned. -/
structure RevealIterTrace where
  click : Option RevealClick
  found : Option String
  deriving Repr

/-- The click an iteration performs (clickFirstVisibleSelector on
altOptions, else on challenge, else nothing). -/
def revealClickOf (o : RevealIterObs) : Option RevealClick :=
  if o.altVisible then some RevealClick.altOptions
  else if o.challengeVisible then some RevealClick.challenge
  else none

/-- The loop body of ensureTotpInput, by remaining iteration count
(attempts = 4 at the top call). Each iteration clicks at most one
disclosure control, re-probes for the input, returns it when found, and
breaks when it performed no action. -/
def ensureTotpAux (it : Nat → RevealIterObs) (i : Nat) :
    Nat → Option String × List RevealIterTrace
  | 0 => (none, [])
  | fuel + 1 =>
    let o := it i
    let click := revealClickOf o
    match o.found with
    | some s => (some s, [⟨click, some s⟩])
    | none =>
      if click.isSome then
        let rest := ensureTotpAux it (i + 1) fuel
        (rest.1, ⟨click, none⟩ :: rest.2)
      else (none, [⟨click, none⟩])

/-- ensureTotpInput(page): the direct findFirstTotpInput probe, then at
most 4 reveal iterations. Returns the resolved selector (or none) and
the trace of executed iterations. -/
def ensureTotpInput (obs : RevealPageObs) : Option String × List RevealIterTrace :=
  match obs.found0 with
  | some s => (some s, [])
  | none => ensureTotpAux obs.iter 0 4

/-! ### isLikelyTotpInput: semantic classification of a candidate input

Attribute reads come back as string-or-null (Option String); the local
attr helper lowercases with '' for null. The closest-label text and the
page-heading probe are likewise observations of the external DOM. -/

/-- The observed attributes of one candidate input element. Raw
getAttribute results; none models a missing attribute. labelText is the
result of the closest-label / aria-describedby evaluate call ('' when it
fails). -/
structure ObservedInput where
  visible : Bool
  type : Option String
  name : Option String
  autocomplete : Option String
  inputmode : Option String
  pattern : Option String
  ariaLabel : Option String
  placeholder : Option String
  id : Option String
  maxlength : Option String
  dataTestid : Option String
  labelText : String

/-- The attr helper of isLikelyTotpInput: getAttribute(name) || '',
lowercased. -/
def attrLower (v : Option String) : String :=
  jsToLower (v.getD "")

/-- Does a string contain an ASCII decimal digit (the /\d/ test)? -/
def containsDigit (s : String) : Bool :=
  s.toList.any Char.isDigit

/-- Number(maxlength) on the integer-literal values the maxlength DOM
attribute carries, tested for 0 < n ≤ 8. Non-numeric text (Number gives
NaN) fails the test. -/
def maxlengthOk (m : Option String) : Bool :=
  match m with
  | none => false
  | some s =>
    match s.toNat? with
    | some k => 0 < k && k ≤ 8
    | none => false

/-- isLikelyTotpInput(page, locator, selector, headingHint), with the
second detectTotpHeading probe (re-run inside the floatingLabelInput
branches) supplied as headingRecheck. Exclusions first: a password or
email type, or a name containing loginfmt/passwd/email/login, always
yields false; then the positive signals in source order. The French
vocabulary checks compare against lowercased text; jsToLower (like
the source's on ASCII) leaves accented capitals unchanged. -/
def isLikelyTotpInput (e : ObservedInput) (selector : String)
    (headingHint : Option String) (headingRecheck : Option String) : Bool :=
  if !e.visible then false
  else
    let type := attrLower e.type
    if type = "email" || type = "password" then false
    else
      let nameAttr := attrLower e.name
      if jsIncludes nameAttr "loginfmt" || jsIncludes nameAttr "passwd" ||
          jsIncludes nameAttr "email" || jsIncludes nameAttr "login" then false
      else if jsIncludes nameAttr "otc" || jsIncludes nameAttr "otp" ||
          jsIncludes nameAttr "code" then true
      else if jsIncludes (attrLower e.autocomplete) "one-time" then true
      else if attrLower e.inputmode = "numeric" then true
      else if (e.pattern.getD "") ≠ "" && containsDigit (e.pattern.getD "") then true
      else if jsIncludes (attrLower e.ariaLabel) "code" ||
          jsIncludes (attrLower e.ariaLabel) "otp" ||
          jsIncludes (attrLower e.ariaLabel) "authenticator" then true
      else if jsIncludes (attrLower e.placeholder) "code" ||
          jsIncludes (attrLower e.placeholder) "security" ||
          jsIncludes (attrLower e.placeholder) "authenticator" then true
      else if jsIncludes selector "otc" || jsIncludes selector "otp" then true
      else if (attrLower e.id).startsWith "floatinglabelinput" &&
          (!jsFalsy headingHint || !jsFalsy headingRecheck) then true
      else if jsIncludes (jsToLower selector) "floatinglabelinput" &&
          (!jsFalsy headingHint || !jsFalsy headingRecheck) then true
      else if maxlengthOk e.maxlength then true
      else if jsIncludes (attrLower e.dataTestid) "otc" ||
          jsIncludes (attrLower e.dataTestid) "otp" then true
      else if e.labelText ≠ "" &&
          (jsIncludes (jsToLower e.labelText) "code" || jsIncludes (jsToLower e.labelText) "otp" ||
           jsIncludes (jsToLower e.labelText) "authenticator" ||
           jsIncludes (jsToLower e.labelText) "sécurité" ||
           jsIncludes (jsToLower e.labelText) "securité" ||
           jsIncludes (jsToLower e.labelText) "security") then true
      else if !jsFalsy headingHint &&
          (jsIncludes (jsToLower (headingHint.getD "")) "code" ||
           jsIncludes (jsToLower (headingHint.getD "")) "otp" ||
           jsIncludes (jsToLower (headingHint.getD "")) "authenticator") then true
      else false

/-! ## HumanTyping (src/util/browser/HumanTyping.ts)

HumanTyping.type draws a base delay of 40 + Math.random()*40 ms per
character, divides by the speed multiplier with Math.floor, and widens
by 1.5 for characters matching /[^a-zA-Z0-9@.]/. The random draw is an
oracle r ∈ [0,1). -/

/-- The per-character delay before widening: Math.floor((40 + r*40) / speed),
the charDelay variable of HumanTyping.type. -/
def charBaseDelay (r speed : ℚ) : ℤ :=
  ⌊(40 + r * 40) / speed⌋

/-- The isSpecialChar test /[^a-zA-Z0-9@.]/ of HumanTyping.type:
everything outside ASCII letters, digits, the at sign and the dot.
Char.isAlphanum is exactly the ASCII class [a-zA-Z0-9]. -/
def isSpecialCharHT (c : Char) : Bool :=
  !(c.isAlphanum || c == '@' || c == '.')

/-- The finalDelay variable of HumanTyping.type: charDelay * 1.5 for
special characters, charDelay otherwise. -/
def finalCharDelay (r speed : ℚ) (c : Char) : ℚ :=
  if isSpecialCharHT c then (charBaseDelay r speed : ℚ) * (3 / 2)
  else (charBaseDelay r speed : ℚ)

/-! ## AccountCreator.retryOperation (account-creation module)

The action is an oracle from attempt index (1-based) to an optional
result (none = the attempt threw). The two Math.random() draws per retry
are oracles u1 a ∈ [0,1) and u2 a ∈ [0,1); the code sleeps
Math.floor(initialDelayMs + u1*500 + attempt*800 + (u2*1000 - 500)) ms
before the next attempt, and rolls a micro-gesture with probability 0.4
when enabled (oracle g). -/

/-- The observable run of a retryOperation call: the returned value
(none when every attempt threw), the sleeps inserted between attempts in
order, the attempt indices after which a micro-gesture ran, and the
number of times the operation was invoked. -/
structure RetryRun (T : Type) where
  result : Option T
  sleeps : List ℤ
  gestures : List Nat
  calls : Nat
  deriving Repr

/-- The backoff sleep before retrying after attempt a:
Math.floor(baseDelay + attempt*800 + variance) with
baseDelay = initialDelayMs + u1*500 and variance = u2*1000 - 500. -/
def retrySleep (initialDelayMs : ℚ) (u1 u2 : Nat → ℚ) (a : Nat) : ℤ :=
  ⌊initialDelayMs + u1 a * 500 + (a : ℚ) * 800 + (u2 a * 1000 - 500)⌋

/-- The for-loop of retryOperation over the remaining attempt indices
(the caller passes [1, ..., maxRetries]). A successful attempt returns
immediately; a failing attempt with attempts remaining sleeps and (40 %
of the time, when enabled) fidgets; the last failing attempt returns
null. -/
def retryOperationAux {T : Type} (outcomes : Nat → Option T) (maxRetries : Nat)
    (initialDelayMs : ℚ) (u1 u2 : Nat → ℚ) (g : Nat → Bool)
    (enableMicroGestures : Bool) : List Nat → RetryRun T
  | [] => ⟨none, [], [], 0⟩
  | a :: rest =>
    match outcomes a with
    | some v => ⟨some v, [], [], 1⟩
    | none =>
      if a < maxRetries then
        let d := retrySleep initialDelayMs u1 u2 a
        let r := retryOperationAux outcomes maxRetries initialDelayMs u1 u2 g
          enableMicroGestures rest
        ⟨r.result, d :: r.sleeps,
         (if enableMicroGestures && g a then [a] else []) ++ r.gestures,
         r.calls + 1⟩
      else ⟨none, [], [], 1⟩

/-- retryOperation(operation, context, maxRetries, initialDelayMs,
enableMicroGestures): attempts 1 to maxRetries. -/
def retryOperation {T : Type} (outcomes : Nat → Option T) (maxRetries : Nat)
    (initialDelayMs : ℚ) (u1 u2 : Nat → ℚ) (g : Nat → Bool)
    (enableMicroGestures : Bool) : RetryRun T :=
  retryOperationAux outcomes maxRetries initialDelayMs u1 u2 g
    enableMicroGestures (List.range' 1 maxRetries)

/-! ## AccountCreator e-mail error recovery
(handleEmailErrors / handleReservedDomain / handleEmailTaken)

Each recovery round observes the page (error element, fill success,
Microsoft's suggestions); the observation for round rc is env rc. The
code paths that log "Browser left open" and then await a promise that
never resolves are modelled by a distinct hang outcome: control never
returns to the caller there. -/

/-- Page observation for one round of the e-mail error loop. -/
structure EmailRoundObs where
  errorText : Option String
  reservedFillSuccess : Bool
  suggestionsVisible : Bool
  suggestionTexts : List String
  errorStillAfterSuggestion : Bool
  nextEnabled : Bool
  finalErrorVisible : Bool
  generatedEmail : String
  autoFillSuccess : Bool

/-- Result of the e-mail step as seen by handleEmailErrors' caller.
success and fillFailed are returned records ({success:true/false});
hang marks the Browser-left-open paths where the function suspends on a
never-resolving promise and no record is ever returned. -/
inductive EmailStepResult where
  | success (email : String)
  | fillFailed
  | hang
  deriving Repr, DecidableEq

/-- One round's classification and recovery, returning retry e' when the
code would recurse into handleEmailErrors(e', retryCount + 1). -/
inductive EmailRoundOutcome where
  | done (r : EmailStepResult)
  | retry (newEmail : String)
  deriving Repr, DecidableEq

/-- email.split('@')[0]: everything before the first at sign (the whole
string when there is none). -/
def emailUsername (email : String) : String :=
  String.mk (email.toList.takeWhile (fun c => c ≠ '@'))

/-- handleReservedDomain(originalEmail): rebuild the address as
username@outlook.com, re-type it (retryOperation-wrapped fill whose
overall success is the observation), then recurse on the new address. -/
def handleReservedDomain (obs : EmailRoundObs) (email : String) : EmailRoundOutcome :=
  let newEmail := emailUsername email ++ "@outlook.com"
  if !obs.reservedFillSuccess then .done .fillFailed
  else .retry newEmail

/-- handleEmailTaken: consume Microsoft's suggested alternate value when
offered; with no suggestions container, generate a fresh address and
recurse; empty suggestion data hangs with the browser left open. -/
def handleEmailTaken (obs : EmailRoundObs) : EmailRoundOutcome :=
  if !obs.suggestionsVisible then
    if !obs.autoFillSuccess then .done .fillFailed
    else .retry obs.generatedEmail
  else
    match obs.suggestionTexts with
    | [] => .done .hang
    | s :: _ =>
      let clean := jsTrim s
      let clean := if clean ≠ "" && !jsIncludes clean "@" then clean ++ "@outlook.com" else clean
      if clean = "" then .done .hang
      else if obs.errorStillAfterSuggestion then
        if obs.nextEnabled && obs.finalErrorVisible then .done .hang
        else .done (.success clean)
      else .done (.success clean)

/-- The body of one handleEmailErrors round (after the retryCount
guard): no visible error accepts the address; a password-requirements
notice is ignored; reserved-domain and taken-identifier errors route to
their recovery strategies; anything else pauses for inspection. -/
def emailErrorRound (obs : EmailRoundObs) (email : String) : EmailRoundOutcome :=
  match obs.errorText with
  | none => .done (.success email)
  | some t =>
    let lt := jsToLower t
    if jsIncludes lt "password" && jsIncludes lt "characters" then .done (.success email)
    else if jsIncludes lt "reserved" || jsIncludes lt "réservé" then
      handleReservedDomain obs email
    else if jsIncludes lt "taken" || jsIncludes lt "pris" ||
        jsIncludes lt "already" || jsIncludes lt "déjà" then
      handleEmailTaken obs
    else .done .hang

/-- The maximum number of alternate-value rounds (MAX_EMAIL_RETRIES). -/
def maxEmailRetries : Nat := 5

/-- handleEmailErrors(originalEmail, retryCount) unrolled on fuel; the
exported wrapper passes enough fuel that the zero case is unreachable.
retryCount at or above the cap logs the give-up message and suspends on
a never-resolving promise (hang). Also returns the number of recovery
rounds performed (recursions taken). -/
def handleEmailErrorsAux (env : Nat → EmailRoundObs) :
    Nat → String → Nat → EmailStepResult × Nat
  | 0, _, _ => (.hang, 0)
  | fuel + 1, email, rc =>
    if maxEmailRetries ≤ rc then (.hang, 0)
    else
      match emailErrorRound (env rc) email with
      | .done r => (r, 0)
      | .retry e' =>
        let rest := handleEmailErrorsAux env fuel e' (rc + 1)
        (rest.1, rest.2 + 1)

/-- handleEmailErrors(originalEmail, retryCount): result plus the count
of alternate-value recovery rounds performed. -/
def handleEmailErrors (env : Nat → EmailRoundObs) (email : String) (rc : Nat) :
    EmailStepResult × Nat :=
  handleEmailErrorsAux env (maxEmailRetries + 1 - rc) email rc

/-! ## Error-report endpoint (api/report-error.js)

normalizeForId strips volatile substrings with four global regex
replacements and collapses whitespace; each regex is translated to a
maximal-munch matcher (the patterns have no backtracking: a digit run
can never extend past its required terminator). The scan carries fuel
equal to the input length, which suffices because every successful match
consumes at least one character. SHA-256 is the external crypto
collaborator, passed in as the hex-digest function. -/

/-- Consume exactly n ASCII digits. -/
def digitsExact : Nat → List Char → Option (List Char)
  | 0, l => some l
  | _ + 1, [] => none
  | n + 1, c :: cs => if c.isDigit then digitsExact n cs else none

/-- Consume one or more ASCII digits (greedy). -/
def digitsAtLeastOne : List Char → Option (List Char)
  | [] => none
  | c :: cs => if c.isDigit then some (cs.dropWhile Char.isDigit) else none

/-- Consume one expected character. -/
def expectChar (ch : Char) : List Char → Option (List Char)
  | [] => none
  | c :: cs => if c = ch then some cs else none

/-- Matcher for an ISO timestamp at the head of the list:
\d{4}-\d{2}-\d{2}T\d{2}:\d{2}:\d{2}\.\d+Z. -/
def matchIso (l : List Char) : Option (List Char) :=
  (digitsExact 4 l).bind (expectChar '-') |>.bind (digitsExact 2)
    |>.bind (expectChar '-') |>.bind (digitsExact 2)
    |>.bind (expectChar 'T') |>.bind (digitsExact 2)
    |>.bind (expectChar ':') |>.bind (digitsExact 2)
    |>.bind (expectChar ':') |>.bind (digitsExact 2)
    |>.bind (expectChar '.') |>.bind digitsAtLeastOne
    |>.bind (expectChar 'Z')

/-- Hex digit class [0-9a-fA-F]. -/
def isHexChar (c : Char) : Bool :=
  c.isDigit || ('a' ≤ c && c ≤ 'f') || ('A' ≤ c && c ≤ 'F')

/-- Matcher for a hex pointer at the head: 0x[0-9a-fA-F]+. -/
def matchHex (l : List Char) : Option (List Char) :=
  match l with
  | '0' :: 'x' :: c :: cs =>
    if isHexChar c then some (cs.dropWhile isHexChar) else none
  | _ => none

/-- Character allowed inside the path tail [^\s:]. -/
def isPathChar (c : Char) : Bool :=
  !(c.isWhitespace || c = ':')

/-- Matcher for an absolute path at the head:
(?:[A-Za-z]:\\|\/)(?:[^\s:]*). -/
def matchPath (l : List Char) : Option (List Char) :=
  match l with
  | c :: ':' :: '\\' :: cs =>
    if c.isAlpha then some (cs.dropWhile isPathChar) else none
  | '/' :: cs => some (cs.dropWhile isPathChar)
  | _ => none

/-- Matcher for a :line(:col) suffix at the head: :\d+(?::\d+)?. -/
def matchLineCol (l : List Char) : Option (List Char) :=
  match l with
  | ':' :: cs =>
    match digitsAtLeastOne cs with
    | none => none
    | some rest =>
      match rest with
      | ':' :: cs2 =>
        match digitsAtLeastOne cs2 with
        | none => some rest
        | some rest2 => some rest2
      | _ => some rest
  | _ => none

/-- Matcher for a whitespace run (\s+) at the head. -/
def matchWs (l : List Char) : Option (List Char) :=
  match l with
  | c :: cs => if c.isWhitespace then some (cs.dropWhile Char.isWhitespace) else none
  | [] => none

/-- One global regex replacement: at each position, replace a match and
continue after it, otherwise keep the character. The replacement text is
never rescanned, exactly like String.prototype.replace. -/
def replaceScan (m : List Char → Option (List Char)) (repl : List Char) :
    Nat → List Char → List Char
  | 0, l => l
  | _ + 1, [] => []
  | fuel + 1, c :: cs =>
    match m (c :: cs) with
    | some rest => repl ++ replaceScan m repl fuel rest
    | none => c :: replaceScan m repl fuel cs

/-- Run one global replacement over a whole list. -/
def runReplace (m : List Char → Option (List Char)) (repl : List Char)
    (l : List Char) : List Char :=
  replaceScan m repl l.length l

/-- normalizeForId(text): strip ISO timestamps and hex pointers, replace
absolute paths by [PATH], strip :line:col suffixes, collapse whitespace,
trim. -/
def normalizeForId (s : String) : String :=
  if s = "" then ""
  else
    let step1 := runReplace matchIso [] s.toList
    let step2 := runReplace matchHex [] step1
    let step3 := runReplace matchPath "[PATH]".toList step2
    let step4 := runReplace matchLineCol [] step3
    jsTrim (String.mk (runReplace matchWs [' '] step4))

/-- The payload fields computeErrorId reads. context and
additionalContext are the string-coerced entries of the two objects (the
code applies String(...) to every value). -/
structure ReportPayload where
  error : String
  stack : Option String
  context : List (String × String)
  additionalContext : List (String × String)

/-- Insert into a lexicographically sorted list of keys. -/
def insertSortedStr (x : String) : List String → List String
  | [] => [x]
  | y :: ys => if x ≤ y then x :: y :: ys else y :: insertSortedStr x ys

/-- Object.keys(...).sort(): lexicographic key order. -/
def sortStrings (l : List String) : List String :=
  l.foldr insertSortedStr []

/-- The k=v parts pushed for an object's sorted keys. -/
def objectParts (entries : List (String × String)) (keys : List String) : List String :=
  keys.map (fun k => k ++ "=" ++ ((entries.lookup k).getD ""))

/-- The canonical string computeErrorId hashes: normalized error,
normalized stack when truthy, context entries minus the timestamp key
(sorted), additionalContext entries (sorted), joined with a bar. -/
def computeCanonical (p : ReportPayload) : String :=
  let parts :=
    [normalizeForId p.error]
    ++ (if jsFalsy p.stack then [] else [normalizeForId (p.stack.getD "")])
    ++ objectParts p.context
        (sortStrings ((p.context.map Prod.fst).filter (fun k => k ≠ "timestamp")))
    ++ objectParts p.additionalContext (sortStrings (p.additionalContext.map Prod.fst))
  String.intercalate "|" parts

/-- computeErrorId(payload): the first 12 hex digits of the SHA-256 of
the canonical string; the digest function is the external collaborator. -/
def computeErrorId (hashHex : String → String) (p : ReportPayload) : String :=
  (hashHex (computeCanonical p)).take 12

/-- One errorCache entry: absolute expiry time and duplicate count. -/
structure CacheEntry where
  expires : Int
  count : Nat
  deriving Repr, DecidableEq

/-- The 1-hour dedupe window (ERROR_TTL_MS). -/
def errorTTLms : Int := 3600000

/-- Map.set on the assoc-list model of errorCache. -/
def setAssoc (cache : List (String × CacheEntry)) (k : String) (v : CacheEntry) :
    List (String × CacheEntry) :=
  if (cache.lookup k).isSome then
    cache.map (fun p => if p.1 = k then (k, v) else p)
  else cache ++ [(k, v)]

/-- What the dedupe section of the handler decides for one report. -/
structure DedupeResult where
  duplicate : Bool
  postedWebhook : Bool
  cache : List (String × CacheEntry)
  deriving Repr

/-- The dedupe block of the handler: a cached id that has not expired is
answered duplicate:true with its count bumped and no webhook post;
otherwise the id is (re)cached for one hour and the report is posted. -/
def dedupeStep (cache : List (String × CacheEntry)) (computedId : String)
    (now : Int) : DedupeResult :=
  match cache.lookup computedId with
  | some e =>
    if now < e.expires then
      ⟨true, false, setAssoc cache computedId { e with count := e.count + 1 }⟩
    else
      ⟨false, true, setAssoc cache computedId ⟨now + errorTTLms, 1⟩⟩
  | none => ⟨false, true, setAssoc cache computedId ⟨now + errorTTLms, 1⟩⟩

/-! ## Config normalizer (src/util/load/Load.ts), vacation block

Number(x) on the raw JSON field composed with the isFinite test is
modelled as Option ℚ: none for values Number turns into NaN or ±Infinity,
some q for a finite numeric result. -/

/-- One vacation day field: isFinite(v) && v > 0 ? Math.floor(v) : dflt. -/
def vacationDays (raw : Option ℚ) (dflt : ℤ) : ℤ :=
  match raw with
  | some q => if 0 < q then ⌊q⌋ else dflt
  | none => dflt

/-- The vacation.minDays / vacation.maxDays normalization: a finite
positive value is floored, anything else falls back to the defaults 3
and 5, and an inverted pair is swapped. -/
def normalizeVacation (minRaw maxRaw : Option ℚ) : ℤ × ℤ :=
  let vMin : ℤ := vacationDays minRaw 3
  let vMax : ℤ := vacationDays maxRaw 5
  if vMax < vMin then (vMax, vMin) else (vMin, vMax)

/-! ## Theorems -/

/-- C1: tryAutoTotp is throttled to at most one code submission per 5 s
window: a call made less than throttleMs = 5000 ms after the previous
successful submission (as recorded in lastTotpSubmit) performs no
submission, leaves the handler state unchanged and returns false — for
every secret argument and every resolvable code input, so a sequence of
calls can never submit twice inside one 5-second window. -/
theorem tryAutoTotp_throttled (s : TotpState) (now : Int)
    (secretArg ensureResult : Option String)
    (h : now - s.lastTotpSubmit < throttleMs) :
    tryAutoTotp s now secretArg ensureResult = ⟨Except.ok false, s, false⟩ := by
  unfold tryAutoTotp
  by_cases h1 : jsFalsy (jsOr secretArg s.currentTotpSecret)
  · simp [h1]
  · simp [h1, h]

/-- Witness for C1 at a concrete state: the previous submission was at
t = 10000 and the call arrives at t = 14999, inside the window. -/
theorem tryAutoTotp_throttled_witness :
    ((14999 : Int) - (⟨10000, 1, some "S"⟩ : TotpState).lastTotpSubmit < throttleMs) ∧
    tryAutoTotp ⟨10000, 1, some "S"⟩ 14999 none (some "otc") =
      ⟨Except.ok false, ⟨10000, 1, some "S"⟩, false⟩ :=
  ⟨by decide, tryAutoTotp_throttled _ _ _ _ (by decide)⟩

/-- C2: with a usable secret, outside the throttle window and with the
challenge input still resolvable, a handler that has already made 3
automatic submissions throws the terminal invalid-secret error instead
of submitting again; the error message differs from the manual-entry
timeout message, and it reaches tryAutoTotp's caller as a thrown
exception (the Except.error outcome). -/
theorem tryAutoTotp_exhausted (s : TotpState) (now : Int)
    (secretArg : Option String) (sel : String)
    (hsec : jsFalsy (jsOr secretArg s.currentTotpSecret) = false)
    (hthr : throttleMs ≤ now - s.lastTotpSubmit)
    (hatt : 3 ≤ s.totpAttempts) :
    tryAutoTotp s now secretArg (some sel) =
      ⟨Except.error totpTerminalMsg, s, false⟩ ∧
    totpTerminalMsg ≠ timeoutErrMsg := by
  refine ⟨?_, by decide⟩
  unfold tryAutoTotp
  simp [hsec, hatt, not_lt.mpr hthr]

/-- Witness for C2: a handler with 3 recorded attempts, a stored secret,
last submission 6000 ms ago, and a still-visible code input. -/
theorem tryAutoTotp_exhausted_witness :
    jsFalsy (jsOr none (⟨0, 3, some "S"⟩ : TotpState).currentTotpSecret) = false ∧
    throttleMs ≤ (6000 : Int) - (⟨0, 3, some "S"⟩ : TotpState).lastTotpSubmit ∧
    3 ≤ (⟨0, 3, some "S"⟩ : TotpState).totpAttempts ∧
    (tryAutoTotp ⟨0, 3, some "S"⟩ 6000 none (some "otc") =
      ⟨Except.error totpTerminalMsg, ⟨0, 3, some "S"⟩, false⟩ ∧
     totpTerminalMsg ≠ timeoutErrMsg) :=
  ⟨by decide, by decide, by decide,
   tryAutoTotp_exhausted _ _ _ _ (by decide) (by decide) (by decide)⟩

/-- C3: the ERE negative signals are absolute: whatever the other
attributes, the selector, the label text or the page headings say, a
candidate whose type attribute is password or email, or whose name
attribute contains loginfmt, passwd, email or login, is never classified
as a TOTP code input. -/
theorem isLikelyTotpInput_negative (e : ObservedInput) (selector : String)
    (headingHint headingRecheck : Option String)
    (h : attrLower e.type = "password" ∨ attrLower e.type = "email" ∨
         jsIncludes (attrLower e.name) "loginfmt" = true ∨
         jsIncludes (attrLower e.name) "passwd" = true ∨
         jsIncludes (attrLower e.name) "email" = true ∨
         jsIncludes (attrLower e.name) "login" = true) :
    isLikelyTotpInput e selector headingHint headingRecheck = false := by
  unfold isLikelyTotpInput
  by_cases hv : e.visible
  · rcases h with h | h | h | h | h | h <;> simp [hv, h]
  · simp [hv]

/-- Witness for C3: a visible password field that also carries every
positive TOTP signal (otc name, one-time autocomplete, numeric
inputmode, digit pattern, code aria-label and placeholder, short
maxlength, otc test id, code label, code heading) is still rejected. -/
theorem isLikelyTotpInput_negative_witness :
    (attrLower (some "password") = "password" ∨
     attrLower (some "password") = "email" ∨
     jsIncludes (attrLower (some "otc")) "loginfmt" = true ∨
     jsIncludes (attrLower (some "otc")) "passwd" = true ∨
     jsIncludes (attrLower (some "otc")) "email" = true ∨
     jsIncludes (attrLower (some "otc")) "login" = true) ∧
    isLikelyTotpInput
      ⟨true, some "password", some "otc", some "one-time-code", some "numeric",
       some "123456", some "code", some "code", some "floatingLabelInput7",
       some "6", some "otcInput", "Enter the code"⟩
      "otc" (some "Enter your security code") none = false :=
  ⟨Or.inl (by decide),
   isLikelyTotpInput_negative _ _ _ _ (Or.inl (by decide))⟩

/-- C4: the manual 2FA prompt when no secret is stored: silence (or an
answer that only arrives at or after the deadline) makes the 120 s timer
win the race — the call throws the explicitly labeled timeout error,
logs the operator-AFK message, the readline wait is closed and no timer
is left pending, and nothing is typed or submitted; an answer strictly
inside the deadline, with the code field still present, is trimmed,
typed through HumanTyping.typeTotp and submitted with Enter, again with
the readline interface closed and the timer cleared. -/
theorem handleSMSOrTotp_manual (s : TotpState) (now : Int)
    (ensureResult : Option String) (env : ManualEntryEnv)
    (hNoSecret : jsFalsy s.currentTotpSecret = true) :
    ((env.operatorInput = none ∨
      (∃ ans t, env.operatorInput = some (ans, t) ∧ manualTimeoutMs ≤ t)) →
      ((handleSMSOrTotp s now ensureResult env).1.result = Except.error timeoutErrMsg ∧
       (handleSMSOrTotp s now ensureResult env).1.rlClosed = true ∧
       (handleSMSOrTotp s now ensureResult env).1.timerPending = false ∧
       (handleSMSOrTotp s now ensureResult env).1.typed = none ∧
       (handleSMSOrTotp s now ensureResult env).1.submitted = false ∧
       (handleSMSOrTotp s now ensureResult env).1.afkLogged = true)) ∧
    (∀ ans t, env.operatorInput = some (ans, t) → t < manualTimeoutMs →
      env.inputFieldVisible = true →
      ((handleSMSOrTotp s now ensureResult env).1.result = Except.ok () ∧
       (handleSMSOrTotp s now ensureResult env).1.rlClosed = true ∧
       (handleSMSOrTotp s now ensureResult env).1.timerPending = false ∧
       (handleSMSOrTotp s now ensureResult env).1.typed = some (jsTrim ans) ∧
       (handleSMSOrTotp s now ensureResult env).1.submitted = true)) := by
  have hauto : (handleSMSOrTotp s now ensureResult env).1 = manualPrompt env := by
    unfold handleSMSOrTotp tryAutoTotp
    simp [show jsOr none s.currentTotpSecret = s.currentTotpSecret from rfl, hNoSecret]
  constructor
  · rintro (hin | ⟨ans, t, hin, ht⟩) <;>
      simp [hauto, manualPrompt, hin, manualTimeoutOutcome, not_lt.mpr, *]
  · intro ans t hin ht hvis
    simp [hauto, manualPrompt, hin, ht, hvis]

/-- Witness for C4, both branches: a silent operator hits the AFK
timeout; an answer of "123456 " arriving at t = 5000 ms is trimmed,
typed and submitted. -/
theorem handleSMSOrTotp_manual_witness :
    jsFalsy (⟨0, 0, none⟩ : TotpState).currentTotpSecret = true ∧
    (handleSMSOrTotp ⟨0, 0, none⟩ 0 none ⟨none, true⟩).1.result =
      Except.error timeoutErrMsg ∧
    (handleSMSOrTotp ⟨0, 0, none⟩ 0 none ⟨none, true⟩).1.rlClosed = true ∧
    (handleSMSOrTotp ⟨0, 0, none⟩ 0 none
        ⟨some ("123456 ", 5000), true⟩).1.typed = some (jsTrim "123456 ") ∧
    (handleSMSOrTotp ⟨0, 0, none⟩ 0 none
        ⟨some ("123456 ", 5000), true⟩).1.submitted = true := by
  have h1 := (handleSMSOrTotp_manual ⟨0, 0, none⟩ 0 none ⟨none, true⟩ rfl).1
    (Or.inl rfl)
  have h2 := (handleSMSOrTotp_manual ⟨0, 0, none⟩ 0 none
    ⟨some ("123456 ", 5000), true⟩ rfl).2 "123456 " 5000 rfl (by decide) rfl
  exact ⟨rfl, h1.1, h1.2.1, h2.2.2.2.1, h2.2.2.2.2⟩

/-- Helper for C5: the loop never invokes the operation more often than
there are attempt indices left. -/
theorem retryOperationAux_calls_le {T : Type} (outcomes : Nat → Option T)
    (maxRetries : Nat) (initialDelayMs : ℚ) (u1 u2 : Nat → ℚ) (g : Nat → Bool)
    (mg : Bool) :
    ∀ l : List Nat,
      (retryOperationAux outcomes maxRetries initialDelayMs u1 u2 g mg l).calls
        ≤ l.length := by
  intro l
  induction l with
  | nil => simp [retryOperationAux]
  | cons a rest ih =>
    unfold retryOperationAux
    cases outcomes a with
    | some v => simp
    | none =>
      by_cases ha : a < maxRetries
      · simpa [ha] using Nat.succ_le_succ ih
      · simp [ha]

/-- Helper for C5: one loop step on a failing attempt with attempts
remaining. -/
theorem retryOperationAux_cons_none {T : Type} (outcomes : Nat → Option T)
    (maxRetries : Nat) (initialDelayMs : ℚ) (u1 u2 : Nat → ℚ) (g : Nat → Bool)
    (mg : Bool) (a : Nat) (l : List Nat) (ha : outcomes a = none)
    (hlt : a < maxRetries) :
    retryOperationAux outcomes maxRetries initialDelayMs u1 u2 g mg (a :: l) =
      ⟨(retryOperationAux outcomes maxRetries initialDelayMs u1 u2 g mg l).result,
       retrySleep initialDelayMs u1 u2 a ::
         (retryOperationAux outcomes maxRetries initialDelayMs u1 u2 g mg l).sleeps,
       (if mg && g a then [a] else []) ++
         (retryOperationAux outcomes maxRetries initialDelayMs u1 u2 g mg l).gestures,
       (retryOperationAux outcomes maxRetries initialDelayMs u1 u2 g mg l).calls + 1⟩ := by
  conv_lhs => rw [retryOperationAux]
  simp [ha, hlt]

/-- Helper for C5: one loop step on a succeeding attempt. -/
theorem retryOperationAux_cons_some {T : Type} (outcomes : Nat → Option T)
    (maxRetries : Nat) (initialDelayMs : ℚ) (u1 u2 : Nat → ℚ) (g : Nat → Bool)
    (mg : Bool) (a : Nat) (l : List Nat) (v : T) (ha : outcomes a = some v) :
    retryOperationAux outcomes maxRetries initialDelayMs u1 u2 g mg (a :: l) =
      ⟨some v, [], [], 1⟩ := by
  conv_lhs => rw [retryOperationAux]
  simp [ha]

/-- Helper for C5: when every attempt throws, the loop over the attempt
indices s, s+1, ..., maxRetries (so s + k = maxRetries + 1) returns
none after k invocations, sleeping the jittered backoff after each
attempt except the last and fidgeting after exactly the enabled
gesture rolls. -/
theorem retryOperationAux_allfail {T : Type} (outcomes : Nat → Option T)
    (maxRetries : Nat) (initialDelayMs : ℚ) (u1 u2 : Nat → ℚ) (g : Nat → Bool)
    (mg : Bool) (hall : ∀ a, outcomes a = none) :
    ∀ k s, 1 ≤ s → s + k = maxRetries + 1 →
      retryOperationAux outcomes maxRetries initialDelayMs u1 u2 g mg
          (List.range' s k) =
        ⟨none, (List.range' s (k - 1)).map (retrySleep initialDelayMs u1 u2),
         (List.range' s (k - 1)).filter (fun a => mg && g a), k⟩ := by
  intro k
  induction k with
  | zero => intro s _ _; simp [List.range', retryOperationAux]
  | succ k ih =>
    intro s hs hsum
    by_cases hk : k = 0
    · subst hk
      have hsm : s = maxRetries := by omega
      simp [List.range', retryOperationAux, hall, hsm]
    · obtain ⟨k', rfl⟩ := Nat.exists_eq_succ_of_ne_zero hk
      have hlt : s < maxRetries := by omega
      have ihs := ih (s + 1) (by omega) (by omega)
      rw [List.range'_succ,
        retryOperationAux_cons_none outcomes maxRetries initialDelayMs u1 u2 g
          mg s _ (hall s) hlt, ihs]
      simp [List.range'_succ, List.filter_cons]
      split <;> simp

/-- Helper for C5: the first attempt index j whose operation succeeds
(every earlier index in range throws) makes the run return its value
after exactly j - s + 1 invocations. -/
theorem retryOperationAux_first_success {T : Type} (outcomes : Nat → Option T)
    (maxRetries : Nat) (initialDelayMs : ℚ) (u1 u2 : Nat → ℚ) (g : Nat → Bool)
    (mg : Bool) (j : Nat) (v : T) (hj : outcomes j = some v) :
    ∀ k s, 1 ≤ s → s + k = maxRetries + 1 → s ≤ j → j ≤ maxRetries →
      (∀ a, s ≤ a → a < j → outcomes a = none) →
      (retryOperationAux outcomes maxRetries initialDelayMs u1 u2 g mg
          (List.range' s k)).result = some v ∧
      (retryOperationAux outcomes maxRetries initialDelayMs u1 u2 g mg
          (List.range' s k)).calls = j - s + 1 := by
  intro k
  induction k with
  | zero => intro s _ hsum hsj hjm _; omega
  | succ k ih =>
    intro s hs hsum hsj hjm hbefore
    by_cases hsj' : s = j
    · subst hsj'
      rw [List.range'_succ,
        retryOperationAux_cons_some outcomes maxRetries initialDelayMs u1 u2 g
          mg s _ v hj]
      simp
    · have hslt : s < j := by omega
      have hnone : outcomes s = none := hbefore s le_rfl hslt
      have hlt : s < maxRetries := by omega
      have ihs := ih (s + 1) (by omega) (by omega) (by omega) hjm
        (fun a ha ha' => hbefore a (by omega) ha')
      rw [List.range'_succ,
        retryOperationAux_cons_none outcomes maxRetries initialDelayMs u1 u2 g
          mg s _ hnone hlt]
      exact ⟨ihs.1, by simp [ihs.2]; omega⟩

/-- C5: retryOperation invokes the operation at most maxRetries times;
when every attempt throws it returns none after exactly maxRetries
invocations, having slept, before each retry with 1-based attempt index
a < maxRetries, exactly the floor of
initialDelayMs + u1(a)*500 + a*800 + (u2(a)*1000 - 500) ms — the
non-exponential jittered schedule — with a micro-gesture after the
attempts whose 40 % roll hit while enabled; and the first successful
attempt's value is returned at once, with no further invocations. -/
theorem retryOperation_spec {T : Type} (outcomes : Nat → Option T)
    (maxRetries : Nat) (initialDelayMs : ℚ) (u1 u2 : Nat → ℚ) (g : Nat → Bool)
    (mg : Bool) :
    ((retryOperation outcomes maxRetries initialDelayMs u1 u2 g mg).calls
        ≤ maxRetries) ∧
    ((∀ a, outcomes a = none) →
      retryOperation outcomes maxRetries initialDelayMs u1 u2 g mg =
        ⟨none,
         (List.range' 1 (maxRetries - 1)).map (retrySleep initialDelayMs u1 u2),
         (List.range' 1 (maxRetries - 1)).filter (fun a => mg && g a),
         maxRetries⟩) ∧
    (∀ j v, 1 ≤ j → j ≤ maxRetries → outcomes j = some v →
      (∀ a, 1 ≤ a → a < j → outcomes a = none) →
      (retryOperation outcomes maxRetries initialDelayMs u1 u2 g mg).result
          = some v ∧
      (retryOperation outcomes maxRetries initialDelayMs u1 u2 g mg).calls
          = j) := by
  refine ⟨?_, ?_, ?_⟩
  · simpa using retryOperationAux_calls_le outcomes maxRetries initialDelayMs
      u1 u2 g mg (List.range' 1 maxRetries)
  · intro hall
    exact retryOperationAux_allfail outcomes maxRetries initialDelayMs u1 u2 g
      mg hall maxRetries 1 le_rfl (by omega)
  · intro j v hj1 hjm hjv hbefore
    have h := retryOperationAux_first_success outcomes maxRetries initialDelayMs
      u1 u2 g mg j v hjv maxRetries 1 le_rfl (by omega) hj1 hjm
      (fun a ha ha' => hbefore a ha ha')
    refine ⟨h.1, ?_⟩
    rw [retryOperation] at *
    omega

/-- Witness for C5: with maxRetries = 3, base delay 1000 ms and random
draws u1 = 1/2, u2 = 1/4, the attempt that first succeeds (index 2)
ends the run after exactly 2 invocations; a run where every attempt
throws returns none after 3 invocations, with the two backoff sleeps
evaluating to 1800 ms and 2600 ms — a non-exponential schedule. -/
theorem retryOperation_spec_witness :
    (retryOperation (fun a => if a = 2 then some (7 : Nat) else none) 3 1000
        (fun _ => 1 / 2) (fun _ => 1 / 4) (fun _ => true) true).result
      = some 7 ∧
    (retryOperation (fun a => if a = 2 then some (7 : Nat) else none) 3 1000
        (fun _ => 1 / 2) (fun _ => 1 / 4) (fun _ => true) true).calls = 2 ∧
    (retryOperation (fun _ => (none : Option Nat)) 3 1000
        (fun _ => 1 / 2) (fun _ => 1 / 4) (fun _ => true) true).result = none ∧
    (retryOperation (fun _ => (none : Option Nat)) 3 1000
        (fun _ => 1 / 2) (fun _ => 1 / 4) (fun _ => true) true).calls = 3 ∧
    (retryOperation (fun _ => (none : Option Nat)) 3 1000
        (fun _ => 1 / 2) (fun _ => 1 / 4) (fun _ => true) true).sleeps
      = [1800, 2600] := by
  have h3 := (retryOperation_spec (fun a => if a = 2 then some (7 : Nat) else none)
      3 1000 (fun _ => 1 / 2) (fun _ => 1 / 4) (fun _ => true) true).2.2 2 7
    (by decide) (by decide) rfl
    (fun a h1 h2 => by
      have ha : a = 1 := by omega
      subst ha; rfl)
  have hallf := (retryOperation_spec (fun _ => (none : Option Nat)) 3 1000
      (fun _ => 1 / 2) (fun _ => 1 / 4) (fun _ => true) true).2.1 (fun _ => rfl)
  refine ⟨h3.1, h3.2, ?_, ?_, ?_⟩
  · rw [hallf]
  · rw [hallf]
  · rw [hallf]
    show List.map _ (List.range' 1 2) = _
    rw [show List.range' 1 2 = [1, 2] from rfl]
    simp only [List.map_cons, List.map_nil, retrySleep]
    norm_num

/-- C6 counterexample: the claim fails on the code in two ways. With
speed 3 and random draw 0, the floored per-character delay is 13 ms,
strictly below the claimed lower bound 40/3 ≈ 13.33 ms. And the widening
test is /[^a-zA-Z0-9@.]/, not non-alphanumeric: the at sign is
non-alphanumeric, yet its delay equals the plain charDelay (60 ms at
speed 1, draw 1/2) and not the widened 1.5 × charDelay. -/
theorem humanTyping_delay_claim_cex :
    ((charBaseDelay 0 3 : ℚ) < 40 / 3) ∧
    '@'.isAlphanum = false ∧
    finalCharDelay (1 / 2) 1 '@' = (charBaseDelay (1 / 2) 1 : ℚ) ∧
    (charBaseDelay (1 / 2) 1 : ℚ) = 60 ∧
    finalCharDelay (1 / 2) 1 '@' ≠ (charBaseDelay (1 / 2) 1 : ℚ) * (3 / 2) := by
  have hbase : charBaseDelay (1 / 2) 1 = 60 := by
    unfold charBaseDelay; norm_num
  have hfin : finalCharDelay (1 / 2) 1 '@' = (charBaseDelay (1 / 2) 1 : ℚ) := by
    unfold finalCharDelay
    rw [show isSpecialCharHT '@' = false from by decide]
    simp
  refine ⟨?_, by decide, hfin, by rw [hbase]; norm_num, ?_⟩
  · unfold charBaseDelay; norm_num
  · rw [hfin, hbase]; norm_num

/-- C6 (amended): the floored per-character delay lies within 1 ms below
40/speed and never exceeds 80/speed (so delay ∈ [⌊40/speed⌋, 80/speed]),
and the delay is widened by exactly 1.5 × precisely for the characters
matching /[^a-zA-Z0-9@.]/ — every character other than ASCII
alphanumerics, the at sign and the dot. -/
theorem humanTyping_delay_spec (r speed : ℚ) (h0 : 0 ≤ r) (h1 : r < 1)
    (hs : 0 < speed) :
    (40 / speed - 1 < (charBaseDelay r speed : ℚ)) ∧
    ((charBaseDelay r speed : ℚ) ≤ 80 / speed) ∧
    (∀ c : Char, (c.isAlphanum = true ∨ c = '@' ∨ c = '.') →
      finalCharDelay r speed c = (charBaseDelay r speed : ℚ)) ∧
    (∀ c : Char, c.isAlphanum = false → c ≠ '@' → c ≠ '.' →
      finalCharDelay r speed c = (charBaseDelay r speed : ℚ) * (3 / 2)) := by
  have hA : (40 : ℚ) / speed ≤ (40 + r * 40) / speed :=
    (div_le_div_iff_of_pos_right hs).mpr (by linarith)
  have hB : ((40 : ℚ) + r * 40) / speed ≤ 80 / speed :=
    (div_le_div_iff_of_pos_right hs).mpr (by nlinarith)
  refine ⟨?_, ?_, ?_, ?_⟩
  · have h2 : ((⌊(40 : ℚ) / speed⌋ : ℤ) : ℚ) ≤ ((⌊((40 : ℚ) + r * 40) / speed⌋ : ℤ) : ℚ) := by
      exact_mod_cast Int.floor_le_floor hA
    have h3 : (40 : ℚ) / speed - 1 < ((⌊(40 : ℚ) / speed⌋ : ℤ) : ℚ) :=
      Int.sub_one_lt_floor _
    unfold charBaseDelay
    linarith
  · have h4 : ((⌊((40 : ℚ) + r * 40) / speed⌋ : ℤ) : ℚ) ≤ ((40 : ℚ) + r * 40) / speed :=
      Int.floor_le _
    unfold charBaseDelay
    linarith
  · intro c hc
    have hsp : isSpecialCharHT c = false := by
      rcases hc with hc | hc | hc
      · simp [isSpecialCharHT, hc]
      · subst hc; decide
      · subst hc; decide
    simp [finalCharDelay, hsp]
  · intro c ha hb hcne
    have hsp : isSpecialCharHT c = true := by
      simp [isSpecialCharHT, ha, hb, hcne]
    simp [finalCharDelay, hsp]

/-- Witness for C6 (amended) at r = 1/2, speed = 2: the delay bounds
hold, the alphanumeric character a is typed at the plain delay and the
hyphen at the 1.5 ×-widened one. -/
theorem humanTyping_delay_spec_witness :
    ((0 : ℚ) ≤ 1 / 2 ∧ (1 / 2 : ℚ) < 1 ∧ (0 : ℚ) < 2) ∧
    (40 / 2 - 1 < (charBaseDelay (1 / 2) 2 : ℚ)) ∧
    ((charBaseDelay (1 / 2) 2 : ℚ) ≤ 80 / 2) ∧
    finalCharDelay (1 / 2) 2 'a' = (charBaseDelay (1 / 2) 2 : ℚ) ∧
    finalCharDelay (1 / 2) 2 '-' = (charBaseDelay (1 / 2) 2 : ℚ) * (3 / 2) := by
  have h := humanTyping_delay_spec (1 / 2) 2 (by norm_num) (by norm_num)
    (by norm_num)
  exact ⟨⟨by norm_num, by norm_num, by norm_num⟩, h.1, h.2.1,
    h.2.2.1 'a' (Or.inl (by decide)),
    h.2.2.2 '-' (by decide) (by decide) (by decide)⟩

/-- C7 counterexample: when every round reports a reserved-domain error
the claim's bound of 5 rounds is respected, but the step never "reports
failure": after the 5th round the code logs the give-up message and
awaits a promise that never resolves, so control never returns — the
result is the hang outcome, not a failure record. -/
theorem emailRecovery_claim_cex :
    handleEmailErrors
        (fun _ => ⟨some "This domain is reserved", true, false, [], false,
          false, false, "gen@outlook.com", true⟩)
        "alice@badmail.test" 0 = (EmailStepResult.hang, 5) ∧
    EmailStepResult.hang ≠ EmailStepResult.fillFailed := by
  exact ⟨by decide, by decide⟩

/-- Helper for C7: the recovery loop never performs more rounds than
retry slots remain below the cap. -/
theorem handleEmailErrorsAux_rounds_le (env : Nat → EmailRoundObs) :
    ∀ fuel email rc,
      (handleEmailErrorsAux env fuel email rc).2 ≤ maxEmailRetries - rc := by
  intro fuel
  induction fuel with
  | zero => intro email rc; simp [handleEmailErrorsAux]
  | succ f ih =>
    intro email rc
    unfold handleEmailErrorsAux
    by_cases h : maxEmailRetries ≤ rc
    · simp [h]
    · simp only [h, if_false]
      cases emailErrorRound (env rc) email with
      | done r => simp
      | retry e' =>
        have hr := ih e' (rc + 1)
        simp only []
        omega

/-- C7 (amended): the alternate-value recovery loop (reserved-domain and
taken-identifier paths combined) performs at most 5 rounds; a call that
has reached the 5-round cap performs no further round and suspends
indefinitely with the browser held open (the hang outcome — no result
record is returned to the caller); and a reserved-domain error with at
least one round of headroom re-submits the same username on the
known-good fallback domain username@outlook.com, succeeding with that
address as soon as the next round shows no error. -/
theorem emailRecovery_spec (env : Nat → EmailRoundObs) (email : String) :
    (handleEmailErrors env email 0).2 ≤ 5 ∧
    (∀ rc, maxEmailRetries ≤ rc →
      handleEmailErrors env email rc = (EmailStepResult.hang, 0)) ∧
    (∀ rc t, (env rc).errorText = some t →
      jsIncludes (jsToLower t) "reserved" = true →
      (jsIncludes (jsToLower t) "password" &&
        jsIncludes (jsToLower t) "characters") = false →
      (env rc).reservedFillSuccess = true →
      (env (rc + 1)).errorText = none →
      rc + 1 < maxEmailRetries →
      handleEmailErrors env email rc =
        (EmailStepResult.success (emailUsername email ++ "@outlook.com"), 1)) := by
  refine ⟨?_, ?_, ?_⟩
  · have h := handleEmailErrorsAux_rounds_le env (maxEmailRetries + 1 - 0) email 0
    simpa [handleEmailErrors, maxEmailRetries] using h
  · intro rc hrc
    show handleEmailErrorsAux env (maxEmailRetries + 1 - rc) email rc = _
    cases h5 : maxEmailRetries + 1 - rc with
    | zero => simp [handleEmailErrorsAux]
    | succ n => simp [handleEmailErrorsAux, hrc]
  · intro rc t ht hres hpw hfill hnext hcap
    have hrc : ¬ (maxEmailRetries ≤ rc) := by omega
    have hrc1 : ¬ (maxEmailRetries ≤ rc + 1) := by omega
    show handleEmailErrorsAux env (maxEmailRetries + 1 - rc) email rc = _
    rw [show maxEmailRetries + 1 - rc = (maxEmailRetries - 1 - rc) + 2 from by
      unfold maxEmailRetries at *; omega]
    simp only [handleEmailErrorsAux, hrc, hrc1, if_false,
      emailErrorRound, ht, hres, hpw, hnext, handleReservedDomain, hfill,
      Bool.not_true, Bool.false_eq_true, Bool.true_or, if_true]

/-- Witness for C7 (amended): a first round showing a reserved-domain
error with a clean second round recovers alice@badmail.test to
alice@outlook.com in one round; the round count from the start is
within 5; and a call already at the cap hangs without another round. -/
theorem emailRecovery_spec_witness :
    handleEmailErrors
        (fun n => if n = 0 then
          (⟨some "This domain is reserved", true, false, [], false, false,
            false, "gen@outlook.com", true⟩ : EmailRoundObs)
          else ⟨none, true, false, [], false, false, false,
            "gen@outlook.com", true⟩)
        "alice@badmail.test" 0 =
      (EmailStepResult.success (emailUsername "alice@badmail.test" ++ "@outlook.com"), 1) ∧
    emailUsername "alice@badmail.test" ++ "@outlook.com" = "alice@outlook.com" ∧
    (handleEmailErrors
        (fun n => if n = 0 then
          (⟨some "This domain is reserved", true, false, [], false, false,
            false, "gen@outlook.com", true⟩ : EmailRoundObs)
          else ⟨none, true, false, [], false, false, false,
            "gen@outlook.com", true⟩)
        "alice@badmail.test" 0).2 ≤ 5 ∧
    handleEmailErrors
        (fun n => if n = 0 then
          (⟨some "This domain is reserved", true, false, [], false, false,
            false, "gen@outlook.com", true⟩ : EmailRoundObs)
          else ⟨none, true, false, [], false, false, false,
            "gen@outlook.com", true⟩)
        "alice@badmail.test" 5 = (EmailStepResult.hang, 0) := by
  have h := emailRecovery_spec
    (fun n => if n = 0 then
      (⟨some "This domain is reserved", true, false, [], false, false,
        false, "gen@outlook.com", true⟩ : EmailRoundObs)
      else ⟨none, true, false, [], false, false, false,
        "gen@outlook.com", true⟩)
    "alice@badmail.test"
  exact ⟨h.2.2 0 "This domain is reserved" rfl (by decide) (by decide) rfl rfl
      (by decide),
    by decide, h.1, h.2.1 5 le_rfl⟩

/-- Helper for C8: loop step when the re-probe finds the input. -/
theorem ensureTotpAux_succ_found (it : Nat → RevealIterObs) (i fuel : Nat)
    (s : String) (h : (it i).found = some s) :
    ensureTotpAux it i (fuel + 1) =
      (some s, [⟨revealClickOf (it i), some s⟩]) := by
  conv_lhs => rw [ensureTotpAux]
  simp [h]

/-- Helper for C8: loop step when nothing is found but a disclosure
control was clicked — the loop continues. -/
theorem ensureTotpAux_succ_acted (it : Nat → RevealIterObs) (i fuel : Nat)
    (h : (it i).found = none) (hc : (revealClickOf (it i)).isSome = true) :
    ensureTotpAux it i (fuel + 1) =
      ((ensureTotpAux it (i + 1) fuel).1,
       ⟨revealClickOf (it i), none⟩ :: (ensureTotpAux it (i + 1) fuel).2) := by
  conv_lhs => rw [ensureTotpAux]
  simp [h, hc]

/-- Helper for C8: loop step when nothing is found and no disclosure
control was visible — the loop breaks. -/
theorem ensureTotpAux_succ_idle (it : Nat → RevealIterObs) (i fuel : Nat)
    (h : (it i).found = none) (hc : (revealClickOf (it i)).isSome = false) :
    ensureTotpAux it i (fuel + 1) =
      (none, [⟨revealClickOf (it i), none⟩]) := by
  conv_lhs => rw [ensureTotpAux]
  simp [h, hc]

/-- Helper for C8: the result of a loop that executed one more iteration
in front still equals the last executed iteration's probe result. -/
theorem revealLast_helper (x : RevealIterTrace) (l : List RevealIterTrace)
    (r : Option String) (hx : x.found = none)
    (hnil : l = [] → r = none)
    (hcons : ∀ h : l ≠ [], r = (l.getLast h).found) :
    ∀ h : (x :: l) ≠ [], r = ((x :: l).getLast h).found := by
  intro h
  cases l with
  | nil => simpa [List.getLast, hx] using hnil rfl
  | cons a l' =>
    rw [List.getLast_cons (by simp)]
    exact hcons (by simp)

/-- Helper for C8: the invariants of the reveal loop, by induction on
remaining fuel — the trace never exceeds the fuel; a positive-fuel loop
executes at least one iteration; each trace entry records exactly the
observed click and probe of its iteration; every non-final iteration
found nothing and acted; the returned selector is the last iteration's
probe result; and an empty trace returns none. -/
theorem ensureTotpAux_spec (it : Nat → RevealIterObs) :
    ∀ fuel i,
      ((ensureTotpAux it i fuel).2.length ≤ fuel) ∧
      (0 < fuel → (ensureTotpAux it i fuel).2 ≠ []) ∧
      (∀ j (hj : j < (ensureTotpAux it i fuel).2.length),
        (((ensureTotpAux it i fuel).2.get ⟨j, hj⟩).click =
            revealClickOf (it (i + j)) ∧
         ((ensureTotpAux it i fuel).2.get ⟨j, hj⟩).found = (it (i + j)).found)) ∧
      (∀ j, j + 1 < (ensureTotpAux it i fuel).2.length →
        ((it (i + j)).found = none ∧ revealClickOf (it (i + j)) ≠ none)) ∧
      (∀ h : (ensureTotpAux it i fuel).2 ≠ [],
        (ensureTotpAux it i fuel).1 =
          ((ensureTotpAux it i fuel).2.getLast h).found) ∧
      ((ensureTotpAux it i fuel).2 = [] → (ensureTotpAux it i fuel).1 = none) := by
  intro fuel
  induction fuel with
  | zero =>
    intro i
    refine ⟨by simp [ensureTotpAux], by simp, ?_, ?_, ?_, by simp [ensureTotpAux]⟩
    · intro j hj; simp [ensureTotpAux] at hj
    · intro j hj; simp [ensureTotpAux] at hj
    · intro h; exact absurd (show (ensureTotpAux it i 0).2 = [] from rfl) h
  | succ fuel ih =>
    intro i
    cases hf : (it i).found with
    | some s =>
      rw [ensureTotpAux_succ_found it i fuel s hf]
      refine ⟨by simp, by simp, ?_, ?_, ?_, by simp⟩
      · intro j hj
        simp only [List.length_cons, List.length_nil] at hj
        have hj0 : j = 0 := by omega
        subst hj0
        simp [hf]
      · intro j hj
        simp at hj
      · intro h
        simp [List.getLast]
    | none =>
      cases hc : (revealClickOf (it i)).isSome with
      | false =>
        rw [ensureTotpAux_succ_idle it i fuel hf hc]
        refine ⟨by simp, by simp, ?_, ?_, ?_, by simp⟩
        · intro j hj
          simp only [List.length_cons, List.length_nil] at hj
          have hj0 : j = 0 := by omega
          subst hj0
          simp [hf]
        · intro j hj
          simp at hj
        · intro h
          simp [List.getLast]
      | true =>
        rw [ensureTotpAux_succ_acted it i fuel hf hc]
        obtain ⟨ih1, ih2, ih3, ih4, ih5, ih6⟩ := ih (i + 1)
        refine ⟨by simpa using ih1, by simp, ?_, ?_, ?_, by simp⟩
        · intro j hj
          cases j with
          | zero => simp [hf]
          | succ j' =>
            simp only [List.length_cons] at hj
            have hj' : j' < (ensureTotpAux it (i + 1) fuel).2.length := by omega
            have h3 := ih3 j' hj'
            constructor
            · simpa [Nat.add_assoc, Nat.add_comm 1 j'] using h3.1
            · simpa [Nat.add_assoc, Nat.add_comm 1 j'] using h3.2
        · intro j hj
          cases j with
          | zero =>
            refine ⟨by simpa using hf, ?_⟩
            intro hnone
            simp only [Nat.add_zero] at hnone
            rw [hnone] at hc
            simp at hc
          | succ j' =>
            simp only [List.length_cons] at hj
            have h4 := ih4 j' (by omega)
            constructor
            · simpa [Nat.add_assoc, Nat.add_comm 1 j'] using h4.1
            · simpa [Nat.add_assoc, Nat.add_comm 1 j'] using h4.2
        · exact revealLast_helper _ _ _ rfl ih6 ih5

/-- C8: ensureTotpInput terminates within 4 reveal iterations (the trace
of executed iterations never exceeds 4); a direct probe hit returns at
once with no iteration; each iteration performs at most one disclosure
click — the first visible other-options control, otherwise the first
visible use-a-code control; every iteration before the last found no
input and did act, so the selector is returned as soon as resolution
succeeds and the loop exits early after an iteration with no action; the
returned value is the last iteration's probe result; and when no action
produces a newly visible code input the call returns none. -/
theorem ensureTotpInput_spec (obs : RevealPageObs) :
    ((ensureTotpInput obs).2.length ≤ 4) ∧
    (∀ s, obs.found0 = some s → ensureTotpInput obs = (some s, [])) ∧
    (obs.found0 = none →
      ((ensureTotpInput obs).2 ≠ []) ∧
      (∀ j e, (ensureTotpInput obs).2.get? j = some e →
        (e.click = revealClickOf (obs.iter j) ∧
         e.found = (obs.iter j).found)) ∧
      (∀ j, j + 1 < (ensureTotpInput obs).2.length →
        ((obs.iter j).found = none ∧ revealClickOf (obs.iter j) ≠ none)) ∧
      (∀ e, (ensureTotpInput obs).2.getLast? = some e →
        (ensureTotpInput obs).1 = e.found) ∧
      ((∀ j, (obs.iter j).found = none) → (ensureTotpInput obs).1 = none)) := by
  cases hf : obs.found0 with
  | some s =>
    have he : ensureTotpInput obs = (some s, []) := by
      simp [ensureTotpInput, hf]
    refine ⟨by simp [he], ?_, ?_⟩
    · intro s' hs'
      injection hs' with hss
      subst hss
      exact he
    · intro hnone
      exact Option.noConfusion hnone
  | none =>
    have he : ensureTotpInput obs = ensureTotpAux obs.iter 0 4 := by
      simp [ensureTotpInput, hf]
    obtain ⟨h1, h2, h3, h4, h5, h6⟩ := ensureTotpAux_spec obs.iter 4 0
    simp only [Nat.zero_add] at h3 h4
    have hne : (ensureTotpAux obs.iter 0 4).2 ≠ [] := h2 (by norm_num)
    refine ⟨by rw [he]; exact h1, ?_, ?_⟩
    · intro s' hs'
      exact Option.noConfusion hs'
    · refine fun _ => ⟨by rw [he]; exact hne, ?_, ?_, ?_, ?_⟩
      · intro j e hget
        rw [he] at hget
        rw [List.get?_eq_some] at hget
        obtain ⟨hj, hval⟩ := hget
        rw [← hval]
        exact h3 j hj
      · intro j hj
        rw [he] at hj
        exact h4 j hj
      · intro e hlast
        rw [he] at hlast ⊢
        rw [List.getLast?_eq_getLast _ hne] at hlast
        injection hlast with hlast
        rw [h5 hne, hlast]
      · intro hall
        rw [he]
        have hpos : 0 < (ensureTotpAux obs.iter 0 4).2.length :=
          List.length_pos.mpr hne
        rw [h5 hne, List.getLast_eq_getElem]
        have hfound := (h3 ((ensureTotpAux obs.iter 0 4).2.length - 1)
          (by omega)).2
        rw [List.get_eq_getElem] at hfound
        rw [hfound]
        exact hall _

/-- Witness for C8: a page whose direct probe already resolves returns
it with zero iterations; a page where nothing ever becomes visible and
no iteration finds an input yields none within the 4-iteration bound. -/
theorem ensureTotpInput_spec_witness :
    ensureTotpInput ⟨some "otc", fun _ => ⟨false, false, none⟩⟩ =
      (some "otc", []) ∧
    (ensureTotpInput ⟨none, fun _ => ⟨false, false, none⟩⟩).1 = none ∧
    (ensureTotpInput ⟨none, fun _ => ⟨false, false, none⟩⟩).2.length ≤ 4 :=
  ⟨(ensureTotpInput_spec ⟨some "otc", fun _ => ⟨false, false, none⟩⟩).2.1
      "otc" rfl,
   ((ensureTotpInput_spec ⟨none, fun _ => ⟨false, false, none⟩⟩).2.2
      rfl).2.2.2.2 (fun _ => rfl),
   (ensureTotpInput_spec ⟨none, fun _ => ⟨false, false, none⟩⟩).1⟩

/-- Helper for C9: looking up a non-timestamp key ignores whether the
timestamp entries were filtered out. -/
theorem lookup_filter_ne (l : List (String × String)) (k : String)
    (hk : k ≠ "timestamp") :
    List.lookup k (l.filter (fun kv => kv.1 ≠ "timestamp")) = List.lookup k l := by
  induction l with
  | nil => rfl
  | cons hd t ih =>
    obtain ⟨a1, a2⟩ := hd
    by_cases ha : a1 = "timestamp"
    · subst ha
      have hk' : (k == "timestamp") = false := by simpa using hk
      simp [List.filter, List.lookup, hk']
      simpa using ih
    · have ha' : (decide ¬a1 = "timestamp") = true := by simpa using ha
      by_cases hka : k = a1
      · subst hka
        simp [List.filter, List.lookup, ha']
      · have hka' : (k == a1) = false := by simpa using hka
        simp [List.filter, List.lookup, ha', hka']
        simpa using ih

/-- Helper for C9: projecting the keys commutes with dropping the
timestamp entries. -/
theorem mapFst_filter (l : List (String × String)) :
    (l.map Prod.fst).filter (fun k => k ≠ "timestamp") =
      (l.filter (fun kv => kv.1 ≠ "timestamp")).map Prod.fst := by
  induction l with
  | nil => rfl
  | cons hd t ih =>
    obtain ⟨a1, a2⟩ := hd
    by_cases ha : a1 = "timestamp"
    · subst ha
      simp [List.filter]
      simpa using ih
    · have ha' : (decide ¬a1 = "timestamp") = true := by simpa using ha
      simp [List.filter, ha']
      simpa using ih

/-- Helper for C9: sorted insertion preserves membership. -/
theorem mem_insertSortedStr (x y : String) (l : List String) :
    y ∈ insertSortedStr x l ↔ y = x ∨ y ∈ l := by
  induction l with
  | nil => simp [insertSortedStr]
  | cons a t ih =>
    unfold insertSortedStr
    by_cases h : x ≤ a
    · simp [h]
    · simp [h, ih]
      tauto

/-- Helper for C9: sorting preserves membership. -/
theorem mem_sortStrings (y : String) (l : List String) :
    y ∈ sortStrings l ↔ y ∈ l := by
  induction l with
  | nil => simp [sortStrings]
  | cons a t ih =>
    simp [sortStrings, mem_insertSortedStr, List.foldr] at *
    tauto

/-- C9: the computed error id ignores everything normalizeForId strips:
two payloads whose error texts and (truthy) stacks normalize alike —
they may differ in ISO timestamps, hex pointers, absolute paths and
:line:col suffixes — and whose contexts agree outside the timestamp key,
with equal additionalContext, get the same id whatever the digest
function; and an id already cached and unexpired is answered as a
duplicate with its count bumped, without an outbound webhook post. -/
theorem reportError_spec (hashHex : String → String) (p1 p2 : ReportPayload)
    (cache : List (String × CacheEntry)) (cid : String) (now : Int)
    (e : CacheEntry) :
    (normalizeForId p1.error = normalizeForId p2.error →
     (if jsFalsy p1.stack then ([] : List String)
        else [normalizeForId (p1.stack.getD "")]) =
       (if jsFalsy p2.stack then ([] : List String)
        else [normalizeForId (p2.stack.getD "")]) →
     p1.context.filter (fun kv => kv.1 ≠ "timestamp") =
       p2.context.filter (fun kv => kv.1 ≠ "timestamp") →
     p1.additionalContext = p2.additionalContext →
     computeErrorId hashHex p1 = computeErrorId hashHex p2) ∧
    (cache.lookup cid = some e → now < e.expires →
      (dedupeStep cache cid now).duplicate = true ∧
      (dedupeStep cache cid now).postedWebhook = false ∧
      (dedupeStep cache cid now).cache =
        setAssoc cache cid ⟨e.expires, e.count + 1⟩) := by
  constructor
  · intro herr hstack hctx hadd
    have hcan : computeCanonical p1 = computeCanonical p2 := by
      unfold computeCanonical
      have hkeys :
          sortStrings ((p1.context.map Prod.fst).filter (fun k => k ≠ "timestamp")) =
            sortStrings ((p2.context.map Prod.fst).filter (fun k => k ≠ "timestamp")) := by
        rw [mapFst_filter, mapFst_filter, hctx]
      have hparts :
          objectParts p1.context
              (sortStrings ((p1.context.map Prod.fst).filter (fun k => k ≠ "timestamp"))) =
            objectParts p2.context
              (sortStrings ((p2.context.map Prod.fst).filter (fun k => k ≠ "timestamp"))) := by
        rw [hkeys]
        unfold objectParts
        apply List.map_congr_left
        intro k hkmem
        have hk : k ≠ "timestamp" := by
          rw [mem_sortStrings] at hkmem
          rw [mapFst_filter, List.mem_map] at hkmem
          obtain ⟨kv, hkv, rfl⟩ := hkmem
          have := List.of_mem_filter hkv
          simpa using this
        have h1 : List.lookup k p1.context =
            List.lookup k (p1.context.filter (fun kv => kv.1 ≠ "timestamp")) :=
          (lookup_filter_ne p1.context k hk).symm
        have h2 : List.lookup k (p2.context.filter (fun kv => kv.1 ≠ "timestamp")) =
            List.lookup k p2.context :=
          lookup_filter_ne p2.context k hk
        rw [h1, hctx, h2]
      rw [herr, hstack, hparts, hadd]
    unfold computeErrorId
    rw [hcan]
  · intro hlook hlt
    simp [dedupeStep, hlook, hlt]

/-- Witness for C9: two concrete reports that differ in an absolute path
(a POSIX one versus a Windows one), a :line:col suffix, a hex pointer,
an ISO timestamp and the context.timestamp value get the same id, here
with the digest collaborator instantiated by the identity; and a cached
unexpired id is answered as a duplicate with no webhook post. -/
theorem reportError_spec_witness :
    normalizeForId
        "Crash at /home/alice/w/app.js:10:5 near 0xDEADBEEF on 2025-01-02T03:04:05.678Z" =
      normalizeForId
        "Crash at C:\\w\\app.js:99 near 0x1f on 2026-12-31T23:59:59.9Z" ∧
    computeErrorId (fun s => s)
        ⟨"Crash at /home/alice/w/app.js:10:5 near 0xDEADBEEF on 2025-01-02T03:04:05.678Z",
         some "at run (/home/alice/w/app.js:10:5)",
         [("version", "1.2"), ("timestamp", "2025-01-02T03:04:05.678Z")],
         [("task", "search")]⟩ =
      computeErrorId (fun s => s)
        ⟨"Crash at C:\\w\\app.js:99 near 0x1f on 2026-12-31T23:59:59.9Z",
         some "at run (C:\\w\\app.js:99)",
         [("version", "1.2"), ("timestamp", "2026-12-31T23:59:59.9Z")],
         [("task", "search")]⟩ ∧
    (dedupeStep [("abc123def456", ⟨1000, 1⟩)] "abc123def456" 500).duplicate = true ∧
    (dedupeStep [("abc123def456", ⟨1000, 1⟩)] "abc123def456" 500).postedWebhook = false ∧
    (dedupeStep [("abc123def456", ⟨1000, 1⟩)] "abc123def456" 500).cache =
      setAssoc [("abc123def456", ⟨1000, 1⟩)] "abc123def456" ⟨1000, 2⟩ := by
  have h := reportError_spec (fun s => s)
    ⟨"Crash at /home/alice/w/app.js:10:5 near 0xDEADBEEF on 2025-01-02T03:04:05.678Z",
     some "at run (/home/alice/w/app.js:10:5)",
     [("version", "1.2"), ("timestamp", "2025-01-02T03:04:05.678Z")],
     [("task", "search")]⟩
    ⟨"Crash at C:\\w\\app.js:99 near 0x1f on 2026-12-31T23:59:59.9Z",
     some "at run (C:\\w\\app.js:99)",
     [("version", "1.2"), ("timestamp", "2026-12-31T23:59:59.9Z")],
     [("task", "search")]⟩
    [("abc123def456", ⟨1000, 1⟩)] "abc123def456" 500 ⟨1000, 1⟩
  obtain ⟨d1, d2, d3⟩ := h.2 rfl (by decide)
  exact ⟨by decide, h.1 (by decide) (by decide) (by decide) rfl, d1, d2, d3⟩

/-- C10 counterexample: minDays = 0.5 is numeric and strictly positive,
so it is not replaced by the default — it is floored, and Math.floor(0.5)
is 0: the returned config has vacation.minDays = 0, which is not a
positive integer, refuting the claimed invariant. -/
theorem normalizeVacation_claim_cex :
    normalizeVacation (some (1 / 2)) none = (0, 5) ∧ ¬ (0 < (0 : ℤ)) := by
  constructor
  · norm_num [normalizeVacation, vacationDays]
  · norm_num

/-- C10 (amended): normalizeConfig's vacation block always returns
minDays ≤ maxDays with both fields non-negative integers; non-numeric or
non-positive inputs are replaced by the defaults 3 and 5, positive
values are floored (so a value in (0,1) becomes 0, not a positive
number), an inverted pair is swapped, and both fields are positive
whenever every supplied numeric value lies outside the open interval
(0,1). -/
theorem normalizeVacation_spec (a b : Option ℚ) :
    ((normalizeVacation a b).1 ≤ (normalizeVacation a b).2) ∧
    (0 ≤ (normalizeVacation a b).1 ∧ 0 ≤ (normalizeVacation a b).2) ∧
    (vacationDays none 3 = 3 ∧ vacationDays none 5 = 5) ∧
    (∀ (q : ℚ) (d : ℤ), q ≤ 0 → vacationDays (some q) d = d) ∧
    (∀ (q : ℚ) (d : ℤ), 0 < q → vacationDays (some q) d = ⌊q⌋) ∧
    (vacationDays b 5 < vacationDays a 3 →
      normalizeVacation a b = (vacationDays b 5, vacationDays a 3)) ∧
    ((∀ q : ℚ, a = some q → 1 ≤ q ∨ q ≤ 0) →
     (∀ q : ℚ, b = some q → 1 ≤ q ∨ q ≤ 0) →
      0 < (normalizeVacation a b).1 ∧ 0 < (normalizeVacation a b).2) := by
  have hnn : ∀ (o : Option ℚ) (d : ℤ), 0 ≤ d → 0 ≤ vacationDays o d := by
    intro o d hd
    cases o with
    | none => simpa [vacationDays] using hd
    | some q =>
      unfold vacationDays
      dsimp only
      split_ifs with h
      · exact Int.floor_nonneg.mpr h.le
      · exact hd
  have hpos : ∀ (o : Option ℚ) (d : ℤ), 0 < d →
      (∀ q : ℚ, o = some q → 1 ≤ q ∨ q ≤ 0) → 0 < vacationDays o d := by
    intro o d hd ho
    cases o with
    | none => simpa [vacationDays] using hd
    | some q =>
      unfold vacationDays
      dsimp only
      split_ifs with h
      · rcases ho q rfl with h1 | h1
        · have hfl : (1 : ℤ) ≤ ⌊q⌋ := Int.le_floor.mpr (by exact_mod_cast h1)
          omega
        · exact absurd h (not_lt.mpr h1)
      · exact hd
  refine ⟨?_, ⟨?_, ?_⟩, ⟨rfl, rfl⟩, ?_, ?_, ?_, ?_⟩
  · unfold normalizeVacation
    dsimp only
    split_ifs with h
    · exact h.le
    · exact not_lt.mp h
  · unfold normalizeVacation
    dsimp only
    split_ifs with h
    · exact hnn b 5 (by norm_num)
    · exact hnn a 3 (by norm_num)
  · unfold normalizeVacation
    dsimp only
    split_ifs with h
    · exact hnn a 3 (by norm_num)
    · exact hnn b 5 (by norm_num)
  · intro q d hq
    simp [vacationDays, not_lt.mpr hq]
  · intro q d hq
    simp [vacationDays, hq]
  · intro h
    simp [normalizeVacation, h]
  · intro ha hb
    have h1 := hpos a 3 (by norm_num) ha
    have h2 := hpos b 5 (by norm_num) hb
    unfold normalizeVacation
    dsimp only
    split_ifs with h
    · exact ⟨h2, h1⟩
    · exact ⟨h1, h2⟩

/-- Witness for C10 (amended) at minDays = 3.5, maxDays = 2: the
fractional value floors to 3, the inverted pair is swapped to (2, 3),
and both results are positive with min ≤ max. -/
theorem normalizeVacation_spec_witness :
    (normalizeVacation (some (7 / 2)) (some 2)).1 ≤
      (normalizeVacation (some (7 / 2)) (some 2)).2 ∧
    0 < (normalizeVacation (some (7 / 2)) (some 2)).1 ∧
    0 < (normalizeVacation (some (7 / 2)) (some 2)).2 ∧
    normalizeVacation (some (7 / 2)) (some 2) = (2, 3) := by
  have h := normalizeVacation_spec (some (7 / 2)) (some 2)
  have hposm := h.2.2.2.2.2.2
    (fun q hq => by injection hq with hq; subst hq; left; norm_num)
    (fun q hq => by injection hq with hq; subst hq; left; norm_num)
  have hswap := h.2.2.2.2.2.1
    (by norm_num [vacationDays])
  refine ⟨h.1, hposm.1, hposm.2, ?_⟩
  rw [hswap]
  norm_num [vacationDays]
